import Mathlib

/-!
Shallow embedding of `src/word_converter.py` (fss-parse-word).

Conventions of the embedding:
- Bytes are `Nat` values (< 256 for real file contents); machine words are
  `Nat` reduced modulo `2^32` where the SHA-256 computation overflows.
- The file system is an association list from file names to byte contents.
  Paths are modelled as bare file names (no directory components), matching
  the stem/suffix arithmetic `pathlib` performs on the final component.
- `hashlib.sha256` is modelled by a full executable SHA-256 implementation;
  the streaming `update` calls accumulate bytes, `hexdigest` hashes the
  accumulated stream, which is exactly the `hashlib` contract.
- Loops with data-dependent exit conditions are given explicit fuel; every
  caller passes fuel that dominates the number of iterations the Python
  loop would perform, so the fuel-0 branch is unreachable on those calls.
-/

/-! ## SHA-256 (model of `hashlib.sha256`) -/

/-- Reduce to a 32-bit word, as every SHA-256 operation is mod 2^32. -/
def w32 (x : Nat) : Nat := x % 4294967296

/-- Right rotation of a 32-bit word. -/
def rotr (n x : Nat) : Nat := w32 ((x >>> n) ||| (x <<< (32 - n)))

/-- Integer `e`-th root by bisection: the largest `r` with `r ^ e ≤ n`.
The fuel dominates the bit length of every argument used here. -/
def irootGo (e : Nat) : Nat → Nat → Nat → Nat → Nat
  | 0, lo, _, _ => lo
  | fuel + 1, lo, hi, n =>
    if hi ≤ lo + 1 then lo
    else
      let mid := (lo + hi) / 2
      if mid ^ e ≤ n then irootGo e fuel mid hi n else irootGo e fuel lo mid n

/-- Integer `e`-th root (largest `r` with `r ^ e ≤ n`). -/
def iroot (e n : Nat) : Nat := irootGo e 200 0 (n + 1) n

/-- The first 64 primes, whose roots generate the SHA-256 constants
(FIPS 180-4 §4.2.2 / §5.3.3). -/
def sha2Primes : List Nat :=
  [2, 3, 5, 7, 11, 13, 17, 19, 23, 29, 31, 37, 41, 43, 47, 53,
   59, 61, 67, 71, 73, 79, 83, 89, 97, 101, 103, 107, 109, 113, 127, 131,
   137, 139, 149, 151, 157, 163, 167, 173, 179, 181, 191, 193, 197, 199, 211, 223,
   227, 229, 233, 239, 241, 251, 257, 263, 269, 271, 277, 281, 283, 293, 307, 311]

/-- The 64 SHA-256 round constants: the first 32 fractional-part bits of
the cube roots of the first 64 primes. -/
def sha256K : List Nat := sha2Primes.map fun p => iroot 3 (p * 2 ^ 96) % 4294967296

/-- The eight initial SHA-256 state words: the first 32 fractional-part
bits of the square roots of the first 8 primes. -/
def sha256H0 : List Nat := (sha2Primes.take 8).map fun p => iroot 2 (p * 2 ^ 64) % 4294967296

/-- SHA-256 Σ0. -/
def sigmaB0 (x : Nat) : Nat := Nat.xor (Nat.xor (rotr 2 x) (rotr 13 x)) (rotr 22 x)

/-- SHA-256 Σ1. -/
def sigmaB1 (x : Nat) : Nat := Nat.xor (Nat.xor (rotr 6 x) (rotr 11 x)) (rotr 25 x)

/-- SHA-256 σ0. -/
def sigmaS0 (x : Nat) : Nat := Nat.xor (Nat.xor (rotr 7 x) (rotr 18 x)) (x >>> 3)

/-- SHA-256 σ1. -/
def sigmaS1 (x : Nat) : Nat := Nat.xor (Nat.xor (rotr 17 x) (rotr 19 x)) (x >>> 10)

/-- SHA-256 choice function; the complement of a 32-bit word `x` is
`2^32 - 1 - x`. -/
def chFun (x y z : Nat) : Nat := Nat.xor (x &&& y) ((4294967295 - x) &&& z)

/-- SHA-256 majority function. -/
def majFun (x y z : Nat) : Nat := Nat.xor (Nat.xor (x &&& y) (x &&& z)) (y &&& z)

/-- Big-endian 8-byte encoding of a length in bits. -/
def be64 (n : Nat) : List Nat :=
  [n / 72057594037927936 % 256, n / 281474976710656 % 256,
   n / 1099511627776 % 256, n / 4294967296 % 256,
   n / 16777216 % 256, n / 65536 % 256, n / 256 % 256, n % 256]

/-- Big-endian 4-byte encoding of a 32-bit word. -/
def be32 (n : Nat) : List Nat :=
  [n / 16777216 % 256, n / 65536 % 256, n / 256 % 256, n % 256]

/-- SHA-256 message padding: a 0x80 byte, zeros to 56 mod 64, then the
bit length as 8 big-endian bytes. -/
def padMsg (msg : List Nat) : List Nat :=
  let l := msg.length
  let z := (56 + 64 - ((l + 1) % 64)) % 64
  msg ++ 0x80 :: (List.replicate z 0 ++ be64 (8 * l))

/-- Pack a byte list into big-endian 32-bit words (4 bytes per word). -/
def toWords : List Nat → List Nat
  | a :: b :: c :: d :: rest => (a * 16777216 + b * 65536 + c * 256 + d) :: toWords rest
  | _ => []

/-- Extend the 16-word message schedule by `n` further words. -/
def extendLoop : Nat → List Nat → List Nat
  | 0, w => w
  | n + 1, w =>
    let t := w.length
    let wt := w32 (sigmaS1 (w.getD (t - 2) 0) + w.getD (t - 7) 0 +
                   sigmaS0 (w.getD (t - 15) 0) + w.getD (t - 16) 0)
    extendLoop n (w ++ [wt])

/-- Full 64-word message schedule of one 64-byte block. -/
def msgSchedule (block : List Nat) : List Nat := extendLoop 48 (toWords block)

/-- One SHA-256 round: the state is the list [a,b,c,d,e,f,g,h]. -/
def roundStep (st : List Nat) (kw : Nat × Nat) : List Nat :=
  match st with
  | [a, b, c, d, e, f, g, h] =>
    let t1 := w32 (h + sigmaB1 e + chFun e f g + kw.1 + kw.2)
    let t2 := w32 (sigmaB0 a + majFun a b c)
    [w32 (t1 + t2), a, b, c, w32 (d + t1), e, f, g]
  | _ => st

/-- SHA-256 compression of one 64-byte block into the running state. -/
def compress (hs : List Nat) (block : List Nat) : List Nat :=
  let st := (sha256K.zip (msgSchedule block)).foldl roundStep hs
  List.zipWith (fun x y => w32 (x + y)) hs st

/-- Split a byte list into chunks of `size` bytes (`fuel` bounds the number
of chunks; callers pass `l.length`, which suffices for any `size ≥ 1`). -/
def chunkList : Nat → Nat → List Nat → List (List Nat)
  | 0, _, _ => []
  | fuel + 1, size, l =>
    if l = [] then [] else l.take size :: chunkList fuel size (l.drop size)

/-- SHA-256 digest (32 bytes) of a byte stream. -/
def sha256 (msg : List Nat) : List Nat :=
  let padded := padMsg msg
  ((chunkList padded.length 64 padded).foldl compress sha256H0).map be32 |>.flatten

/-- A lowercase hexadecimal digit. -/
def hexDigit (n : Nat) : Char :=
  if n < 10 then Char.ofNat (48 + n) else Char.ofNat (87 + n)

/-- Two lowercase hex digits of one byte. -/
def byteHex (b : Nat) : List Char := [hexDigit (b / 16), hexDigit (b % 16)]

/-- Lowercase hex digest string of a byte stream (`hexdigest()`). -/
def sha256hex (msg : List Nat) : String :=
  ⟨(sha256 msg).foldr (fun b acc => byteHex b ++ acc) []⟩

/-! ## String utilities (models of the Python `str` operations used) -/

/-- Python `str.strip()`: drop whitespace on both ends. -/
def pyStrip (s : String) : String :=
  ⟨((s.data.dropWhile Char.isWhitespace).reverse.dropWhile Char.isWhitespace).reverse⟩

/-- Python `str.rstrip()`: drop trailing whitespace. -/
def rstrip (s : String) : String :=
  ⟨(s.data.reverse.dropWhile Char.isWhitespace).reverse⟩

/-- `str.startswith` (whole-string test, evaluable by reduction). -/
def strStartsWith (s pre : String) : Bool := pre.data.isPrefixOf s.data

/-- `str.endswith`. -/
def strEndsWith (s suf : String) : Bool := suf.data.isSuffixOf s.data

/-- Character membership (Python `c in s`). -/
def strHasChar (s : String) (c : Char) : Bool := s.data.any (fun x => x = c)

/-- Python `str.split(sep)` for a one-character separator: splitting never
discards empty fragments. -/
def splitOnChar (sep : Char) : List Char → List (List Char)
  | [] => [[]]
  | c :: rest =>
    let r := splitOnChar sep rest
    if c = sep then [] :: r
    else
      match r with
      | h :: t => (c :: h) :: t
      | [] => [[c]]

/-- Python `sep.join(xs)`. -/
def joinWith (sep : String) : List String → String
  | [] => ""
  | [x] => x
  | x :: rest => x ++ sep ++ joinWith sep rest

/-- Substring containment on character lists (Python `needle in hay`). -/
def hasSubL (needle : List Char) : List Char → Bool
  | [] => needle.isEmpty
  | c :: rest => needle.isPrefixOf (c :: rest) || hasSubL needle rest

/-- Substring containment (Python `needle in hay`). -/
def hasSub (needle s : String) : Bool := hasSubL needle.data s.data

/-- Split at the first occurrence of `marker`: returns the characters
before it and the characters after it (Python `str.find` + slicing). -/
def splitFirst (marker : List Char) : List Char → Option (List Char × List Char)
  | [] => if marker.isPrefixOf ([] : List Char) then some ([], []) else none
  | c :: rest =>
    if marker.isPrefixOf (c :: rest) then some ([], (c :: rest).drop marker.length)
    else
      match splitFirst marker rest with
      | some (pre, post) => some (c :: pre, post)
      | none => none

/-- Python `content.find(marker, start)`: index of the first occurrence of
`marker` at or after `start`, if any. -/
def findFromIdx (cs : List Char) (start : Nat) (marker : List Char) : Option Nat :=
  match splitFirst marker (cs.drop start) with
  | some (pre, _) => some (start + pre.length)
  | none => none

/-! ## Path arithmetic (model of `pathlib` stem / suffix / with_suffix) -/

/-- Index of the last '.' in a name, if any. -/
def lastDotIdx (cs : List Char) : Option Nat :=
  (List.range cs.length).foldl
    (fun acc i => if cs.getD i ' ' = '.' then some i else acc) none

/-- `pathlib` splits a name at its final '.' provided that dot is neither
the first nor the last character; otherwise the suffix is empty. -/
def splitName (name : String) : String × String :=
  let cs := name.data
  match lastDotIdx cs with
  | some i =>
    if 0 < i && i + 1 < cs.length then (⟨cs.take i⟩, ⟨cs.drop i⟩)
    else (name, "")
  | none => (name, "")

/-- `Path(name).stem`. -/
def pathStem (name : String) : String := (splitName name).1

/-- `Path(name).suffix`. -/
def pathSuffix (name : String) : String := (splitName name).2

/-- `Path(name).with_suffix(s)`: replace the final suffix by `s`. -/
def withSuffix (name s : String) : String := pathStem name ++ s

/-! ## File system model and `FileSafetyManager` -/

/-- A file system: association list from file names to byte contents. -/
abbrev FS : Type := List (String × List Nat)

/-- Content of a file, if present (first binding wins). -/
def lookupFS : FS → String → Option (List Nat)
  | [], _ => none
  | (q, c) :: rest, p => if q = p then some c else lookupFS rest p

/-- `Path.exists()`. -/
def fsExists (fs : FS) (p : String) : Bool := (lookupFS fs p).isSome

/-- `SafetyConfig` dataclass (defaults as in the source). -/
structure SafetyConfig where
  require_confirmation : Bool := true
  create_backup : Bool := true
  check_hash : Bool := true
  prevent_overwrite : Bool := true
  backup_suffix : String := ".backup"

/-- `hashlib` object update: the object just accumulates the byte stream. -/
def hashlibUpdate (state block : List Nat) : List Nat := state ++ block

/-- `FileSafetyManager.calculate_file_hash`: empty string for a missing
file, else the SHA-256 hex digest of the contents, streamed to the hash
object in 4096-byte blocks. -/
def calculate_file_hash (fs : FS) (p : String) : String :=
  match lookupFS fs p with
  | none => ""
  | some content =>
    sha256hex ((chunkList content.length 4096 content).foldl hashlibUpdate [])

/-- `FileSafetyManager.detect_conversion_collision`: target missing is no
collision; same stem means compare the two digests; different stems is no
collision.  (Pure: the Python method only reads files.) -/
def detect_conversion_collision (fs : FS) (src tgt : String) : Bool :=
  if !fsExists fs tgt then false
  else if pathStem src == pathStem tgt then
    calculate_file_hash fs src != calculate_file_hash fs tgt
  else false

/-- Candidate backup name for counter `k` (`k = 0` is the initial
`with_suffix(suffix + backup_suffix)` before the while loop). -/
def backupCandidate (cfg : SafetyConfig) (p : String) (k : Nat) : String :=
  if k = 0 then withSuffix p (pathSuffix p ++ cfg.backup_suffix)
  else withSuffix p (pathSuffix p ++ cfg.backup_suffix ++ "." ++ Nat.repr k)

/-- The `while backup_path.exists()` loop of `create_backup`: starting from
candidate `k`, return the first candidate that does not exist.  Fuel
dominates the number of existing files plus the probes the source loop
makes in the scenarios we reason about. -/
def backupLoop (fs : FS) (cfg : SafetyConfig) (p : String) : Nat → Nat → Option String
  | 0, _ => none
  | fuel + 1, k =>
    if fsExists fs (backupCandidate cfg p k) then backupLoop fs cfg p fuel (k + 1)
    else some (backupCandidate cfg p k)

/-- `FileSafetyManager.create_backup`: no-op `none` on a missing file, else
copy the file to the first free backup name.  Returns the chosen name and
the file system after the copy. -/
def create_backup (cfg : SafetyConfig) (fs : FS) (p : String) : Option String × FS :=
  match lookupFS fs p with
  | none => (none, fs)
  | some content =>
    match backupLoop fs cfg p (fs.length + 3) 0 with
    | none => (none, fs)
    | some bp => (some bp, (bp, content) :: fs)

/-- `FileSafetyManager.confirm_overwrite`: true without prompting when
confirmation is off, else the lowered, stripped response must be an
affirmative.  (`p` is the prompted path, used only in the prompt text.) -/
def confirm_overwrite (cfg : SafetyConfig) (_p : String) (resp : String) : Bool :=
  if !cfg.require_confirmation then true
  else
    let r := pyStrip ⟨resp.data.map Char.toLower⟩
    r == "y" || r == "yes"

/-- `FileSafetyManager.safe_write_check`: collision first, then the
confirmation and backup steps for an existing target.  Returns the
(can_proceed, reason) pair of the source plus the file system after any
backup copy. -/
def safe_write_check (cfg : SafetyConfig) (resp : String) (fs : FS)
    (src tgt : String) : Bool × String × FS :=
  if detect_conversion_collision fs src tgt then
    (false, "Collision detected: " ++ tgt ++ " exists with different content", fs)
  else if fsExists fs tgt then
    if cfg.prevent_overwrite && !confirm_overwrite cfg tgt resp then
      (false, "User cancelled overwrite", fs)
    else if cfg.create_backup then
      (true, "Safe to proceed", (create_backup cfg fs tgt).2)
    else
      (true, "Safe to proceed", fs)
  else
    (true, "Safe to proceed", fs)

/-! ## `WordToMarkdownConverter`: run formatting and table emission -/

/-- A run of a rich-document paragraph: its text and the font attribute
flags the converter inspects (`python-docx` run properties). -/
structure DocxRun where
  text : String
  bold : Bool := false
  italic : Bool := false
  underline : Bool := false
  strike : Bool := false
  superscript : Bool := false
  subscript : Bool := false
  hyperlink : Bool := false
deriving DecidableEq, Repr

/-- Hyperlink slug: `text.replace(' ', '-').lower()`. -/
def linkSlug (s : String) : String :=
  ⟨(s.data.map fun c => if c = ' ' then '-' else c).map Char.toLower⟩

/-- The per-run body of `WordToMarkdownConverter._process_runs`: wrap the
run text according to its attributes, rebinding `text` in the source's
statement order (superscript/subscript, strikethrough, underline,
bold/italic), then the hyperlink rewrite which replaces the wrapped text
entirely.  (The source's `formatting_applied` local is written but never
read, so it is not modelled.) -/
def runMarkup (r : DocxRun) : String :=
  let text := r.text
  let text :=
    if r.superscript then "<sup>" ++ text ++ "</sup>"
    else if r.subscript then "<sub>" ++ text ++ "</sub>"
    else text
  let text := if r.strike then "~~" ++ text ++ "~~" else text
  let text := if r.underline then "<u>" ++ text ++ "</u>" else text
  let text :=
    if r.bold && r.italic then "***" ++ text ++ "***"
    else if r.bold then "**" ++ text ++ "**"
    else if r.italic then "*" ++ text ++ "*"
    else text
  if r.hyperlink then "[" ++ r.text ++ "](#" ++ linkSlug r.text ++ ")"
  else text

/-- `WordToMarkdownConverter._process_runs`: concatenate the wrapped runs
(`result += text`).  The hyperlink-offset metadata bookkeeping has no
effect on the returned text and is not modelled. -/
def process_runs (runs : List DocxRun) : String :=
  runs.foldl (fun acc r => acc ++ runMarkup r) ""

/-- `WordToMarkdownConverter._process_table`: a rich-document table (rows
of stripped cell texts) becomes a pipe table: header row, `---` separator
sized to the header, then the data rows, joined by newlines.  The
`metadata.tables` bookkeeping has no effect on the returned text. -/
def process_table (rows : List (List String)) : String :=
  if rows.isEmpty then ""
  else
    let table_data := rows.map fun r => r.map pyStrip
    if table_data.isEmpty || (table_data.headD []).isEmpty then ""
    else
      let header := "| " ++ joinWith " | " (table_data.headD []) ++ " |"
      let sep := "| " ++ joinWith " | "
        (List.replicate (table_data.headD []).length "---") ++ " |"
      let dataLines := (table_data.drop 1).map
        fun r => "| " ++ joinWith " | " r ++ " |"
      joinWith "\n" (header :: sep :: dataLines)

/-! ## `MarkdownToWordConverter`: inline formatting -/

/-- A run added to a built paragraph by `_apply_inline_formatting`:
plain text, bold/italic flags, code-font styling, or link styling
(blue + underline). -/
structure IRun where
  text : String
  bold : Bool := false
  italic : Bool := false
  codeStyle : Bool := false
  linkStyle : Bool := false
deriving DecidableEq, Repr

/-- Result of matching the combined inline pattern
`(\*\*\*(.+?)\*\*\*|\*\*(.+?)\*\*|\*(.+?)\*|`(.+?)`|\[(.+?)\]\((.+?)\))`
at the head of the input: the full matched text, the captured groups of
the alternative that matched (2-6; group 7, the link target, is never read
by the converter), and the remaining input. -/
structure MRes where
  full : List Char
  g2 : Option (List Char) := none
  g3 : Option (List Char) := none
  g4 : Option (List Char) := none
  g5 : Option (List Char) := none
  g6 : Option (List Char) := none
  rest : List Char

/-- Non-greedy `(.+?)` up to a closing delimiter: the shortest non-empty
prefix of the input followed by `close`; returns it and the input after
the delimiter. -/
def splitAtClose (close : List Char) (acc : List Char) : List Char → Option (List Char × List Char)
  | [] => none
  | c :: rest =>
    if close.isPrefixOf rest then some (acc ++ [c], rest.drop close.length)
    else splitAtClose close (acc ++ [c]) rest

/-- Match `open (.+?) close` at the head of the input, returning the full
match, the captured group and the rest. -/
def tryDelim (opn close : List Char) (cs : List Char) : Option (List Char × List Char × List Char) :=
  if opn.isPrefixOf cs then
    match splitAtClose close [] (cs.drop opn.length) with
    | some (content, rest) => some (opn ++ content ++ close, content, rest)
    | none => none
  else none

/-- Backtracking body of `\[(.+?)\]\((.+?)\)` after the `[`: extend the
first group one character at a time; whenever `](` follows, look for the
shortest second group closed by `)`, and on failure keep extending the
first group (regex backtracking). -/
def linkScan (acc : List Char) : List Char → Option (List Char × List Char × List Char)
  | [] => none
  | c :: rest =>
    if [']', '('].isPrefixOf rest then
      match splitAtClose [')'] [] (rest.drop 2) with
      | some (g7, rest') => some (acc ++ [c], g7, rest')
      | none => linkScan (acc ++ [c]) rest
    else linkScan (acc ++ [c]) rest

/-- Match the combined inline pattern at the head of the input, trying the
five alternatives in the source's order. -/
def matchAt (cs : List Char) : Option MRes :=
  match tryDelim "***".data "***".data cs with
  | some (full, g, rest) => some { full := full, g2 := some g, rest := rest }
  | none =>
  match tryDelim "**".data "**".data cs with
  | some (full, g, rest) => some { full := full, g3 := some g, rest := rest }
  | none =>
  match tryDelim "*".data "*".data cs with
  | some (full, g, rest) => some { full := full, g4 := some g, rest := rest }
  | none =>
  match tryDelim "`".data "`".data cs with
  | some (full, g, rest) => some { full := full, g5 := some g, rest := rest }
  | none =>
  match cs with
  | '[' :: rest =>
    match linkScan [] rest with
    | some (g6, g7, rest') =>
      some { full := '[' :: g6 ++ ']' :: '(' :: g7 ++ [')'], g6 := some g6, rest := rest' }
    | none => none
  | _ => none

/-- The run-classification `if/elif` chain of `_apply_inline_formatting`,
applied to a match: it re-inspects the full matched text, and reads the
group of the alternative it concludes matched (`add_run(None)` on a group
that did not participate yields an empty run text).  No run is added if no
branch fires. -/
def classifyMatch (m : MRes) : Option IRun :=
  let full : String := ⟨m.full⟩
  if strStartsWith full "***" && strEndsWith full "***" then
    some { text := ⟨(m.g2.getD [])⟩, bold := true, italic := true }
  else if strStartsWith full "**" && strEndsWith full "**" then
    some { text := ⟨(m.g3.getD [])⟩, bold := true }
  else if strStartsWith full "*" && strEndsWith full "*" then
    some { text := ⟨(m.g4.getD [])⟩, italic := true }
  else if strStartsWith full "`" && strEndsWith full "`" then
    some { text := ⟨(m.g5.getD [])⟩, codeStyle := true }
  else if hasSub "[" full && hasSub "](" full then
    some { text := ⟨(m.g6.getD [])⟩, linkStyle := true }
  else none

/-- The `re.finditer` walk of `_apply_inline_formatting`: scan left to
right; literal text between matches becomes an unstyled run (only if
non-empty), each match becomes one styled run.  Fuel is the input length
plus one; every step consumes at least one character. -/
def inlineLoop : Nat → List Char → List Char → List IRun
  | 0, lit, cs => if lit ++ cs = [] then [] else [{ text := ⟨lit ++ cs⟩ }]
  | _ + 1, lit, [] => if lit = [] then [] else [{ text := ⟨lit⟩ }]
  | fuel + 1, lit, c :: rest =>
    match matchAt (c :: rest) with
    | none => inlineLoop fuel (lit ++ [c]) rest
    | some m =>
      (if lit = [] then [] else [({ text := ⟨lit⟩ } : IRun)]) ++
      (match classifyMatch m with | some r => [r] | none => []) ++
      inlineLoop fuel [] m.rest

/-- `MarkdownToWordConverter._apply_inline_formatting` on one line. -/
def apply_inline_formatting (line : String) : List IRun :=
  inlineLoop (line.data.length + 1) [] line.data

/-! ## `MarkdownToWordConverter`: document building -/

/-- The built rich document, as the sequence of structural elements the
converter appends.  Direct formatting attributes (fonts, colors, spacing,
borders) are abstracted into the constructor identity: `headerBox` is the
bordered/centered/bold paragraph of `_add_header_box`, `hrule` the styled
divider paragraph of `_add_horizontal_rule`, and so on. -/
inductive Block where
  | para (runs : List IRun)
  | emptyPara
  | heading (builtin : Bool) (text : String) (level : Nat)
  | bullet (text : String)
  | numbered (text : String)
  | codeBlock (text : String)
  | hrule
  | headerBox (text : String)
  | quote (text : String)
  | table (cells : List (List String))
deriving DecidableEq, Repr

/-- `ConversionConfig`, reduced to the one field that changes document
structure; the purely visual fields (fonts, sizes, colors, spacing, table
style) are abstracted away with the formatting attributes. -/
structure ConversionConfig where
  use_builtin_styles : Bool := true

/-- `FormatMetadata` dataclass: the round-trip record.  Python `dict`
fields become association lists, tuple lists keep their arity. -/
structure FormatMetadata where
  bold_ranges : List (Nat × Nat) := []
  italic_ranges : List (Nat × Nat) := []
  heading_levels : List (Nat × Nat) := []
  lists : List (Nat × String) := []
  tables : List (Nat × Nat × Nat × List (List String)) := []
  hyperlinks : List (Nat × Nat × Nat) := []
  images : List String := []
  styles : List (String × String) := []
  file_hash : String := ""
  conversion_timestamp : String := ""
deriving DecidableEq, Repr

/-- `MarkdownToWordConverter._is_horizontal_rule`: `---`/`***`/`___`, or
ten or more repeated `-`, `=` or `─` characters. -/
def is_horizontal_rule (line : String) : Bool :=
  let s := pyStrip line
  if s = "" then false
  else if s = "---" || s = "***" || s = "___" then true
  else
    10 ≤ s.length &&
      (s.data.all (· = '-') || s.data.all (· = '=') || s.data.all (· = '─'))

/-- `MarkdownToWordConverter._is_header_box_divider`: twenty or more `=`,
then a following line that is non-empty and not itself divider-like (its
non-whitespace characters are not all drawn from `=-_`), then another
twenty-or-more `=` line. -/
def is_header_box_divider (line : String) (lines : List String) (i : Nat) : Bool :=
  let s := pyStrip line
  if 20 ≤ s.length && s.data.all (· = '=') then
    if i + 2 < lines.length then
      let textLine := pyStrip (lines.getD (i + 1) "")
      let closing := pyStrip (lines.getD (i + 2) "")
      if textLine ≠ "" &&
          !((textLine.data.filter (fun c => !c.isWhitespace)).all
            (fun c => c = '=' || c = '-' || c = '_')) then
        20 ≤ closing.length && closing.data.all (· = '=')
      else false
    else false
  else false

/-- `MarkdownToWordConverter._extract_header_box_text`: read the header
text and blank out the two consumed lines of the (live) line list. -/
def extract_header_box_text (lines : List String) (i : Nat) : Option String × List String :=
  if i + 2 < lines.length then
    (some (pyStrip (lines.getD (i + 1) "")), (lines.set (i + 1) "").set (i + 2) "")
  else (none, lines)

/-- The `^\s*\d+\.` test selecting numbered-list lines. -/
def numListMatch (line : String) : Bool :=
  let rest := line.data.dropWhile Char.isWhitespace
  let digits := rest.takeWhile Char.isDigit
  !digits.isEmpty &&
    match rest.drop digits.length with
    | '.' :: _ => true
    | _ => false

/-- `re.sub(r'^\s*\d+\.\s*', '', line)`: strip the numbered-list marker
when it is present, else leave the line unchanged. -/
def numListStripMarker (line : String) : String :=
  if numListMatch line then
    let rest := line.data.dropWhile Char.isWhitespace
    let afterDigits := rest.drop (rest.takeWhile Char.isDigit).length
    ⟨(afterDigits.drop 1).dropWhile Char.isWhitespace⟩
  else line

/-- The greedy pipe-line collection of the table branch: gather the
immediately following lines that contain `|` and whose stripped text
starts with `|`.  Fuel is the line count, which bounds the scan. -/
def collectTableLines (lines : List String) : Nat → Nat → List String → List String
  | 0, _, acc => acc
  | fuel + 1, j, acc =>
    if j < lines.length then
      let nl := lines.getD j ""
      if strHasChar nl '|' && strStartsWith (pyStrip nl) "|" then
        collectTableLines lines fuel (j + 1) (acc ++ [nl])
      else acc
    else acc

/-- `MarkdownToWordConverter._add_markdown_table`: drop every collected
line containing `---`, split the rest on `|` discarding the first and last
fragments, strip the cells; if any row survives, build a table sized to
the first row's column count (extra cells are truncated, missing cells
stay empty). -/
def add_markdown_table (tls : List String) : List Block :=
  let rows := tls.foldl
    (fun acc l =>
      if hasSub "---" l then acc
      else
        let cells := (((splitOnChar '|' l.data).map fun u => (⟨u⟩ : String)).drop 1).dropLast.map pyStrip
        if cells = [] then acc else acc ++ [cells])
    []
  if rows = [] then []
  else
    let cols := (rows.headD []).length
    [Block.table (rows.map fun r => (List.range cols).map fun j => r.getD j "")]

/-- The per-line `if/elif` chain of `_build_document` after the code
block / blank / divider / header-box checks: heading, bullet, numbered,
table (with lookahead into the live line list), blockquote, else plain
paragraph with inline formatting. -/
def classifyRest (cfg : ConversionConfig) (line : String) (lines : List String) (i : Nat) : List Block :=
  if strStartsWith line "#" then
    let level := (line.data.takeWhile (· = '#')).length
    let text := pyStrip ⟨line.data.dropWhile (· = '#')⟩
    [Block.heading cfg.use_builtin_styles text level]
  else if strStartsWith (pyStrip line) "-" || strStartsWith (pyStrip line) "*"
      || strStartsWith (pyStrip line) "+" then
    [Block.bullet (pyStrip ⟨(pyStrip line).data.drop 1⟩)]
  else if numListMatch line then
    [Block.numbered (numListStripMarker line)]
  else if strHasChar line '|' && strStartsWith (pyStrip line) "|" then
    let tls := collectTableLines lines lines.length (i + 1) [line]
    if 2 ≤ tls.length then add_markdown_table tls else []
  else if strStartsWith (pyStrip line) ">" then
    [Block.quote (pyStrip ⟨(pyStrip line).data.drop 1⟩)]
  else
    [Block.para (apply_inline_formatting line)]

/-- The main line loop of `_build_document`.  Each iteration handles the
line at index `i` of the live (mutable) line list exactly as the source:
fenced-code toggling, blank lines, horizontal rules, the header-box
branch (which mutates the line list and, through the source's ineffective
`line_num +=` statement, does NOT skip ahead), then the `if/elif` chain.
Fuel is the line count: the loop advances `i` by one per iteration. -/
def build_loop (cfg : ConversionConfig) :
    Nat → List String → Nat → Bool → List String → List Block → List Block
  | 0, _, _, _, _, acc => acc
  | fuel + 1, lines, i, inCode, codeAcc, acc =>
    if i < lines.length then
      let line := rstrip (lines.getD i "")
      if strStartsWith line "```" then
        if inCode then
          build_loop cfg fuel lines (i + 1) false []
            (acc ++ [Block.codeBlock (joinWith "\n" codeAcc)])
        else build_loop cfg fuel lines (i + 1) true codeAcc acc
      else if inCode then
        build_loop cfg fuel lines (i + 1) true (codeAcc ++ [line]) acc
      else if pyStrip line = "" then
        build_loop cfg fuel lines (i + 1) inCode codeAcc (acc ++ [Block.emptyPara])
      else if is_horizontal_rule line then
        build_loop cfg fuel lines (i + 1) inCode codeAcc (acc ++ [Block.hrule])
      else if is_header_box_divider line lines i then
        match extract_header_box_text lines i with
        | (some t, lines') =>
          if t ≠ "" then
            build_loop cfg fuel lines' (i + 1) inCode codeAcc (acc ++ [Block.headerBox t])
          else
            build_loop cfg fuel lines' (i + 1) inCode codeAcc
              (acc ++ classifyRest cfg line lines' i)
        | (none, lines') =>
          build_loop cfg fuel lines' (i + 1) inCode codeAcc
            (acc ++ classifyRest cfg line lines' i)
      else
        build_loop cfg fuel lines (i + 1) inCode codeAcc
          (acc ++ classifyRest cfg line lines i)
    else acc

/-- `MarkdownToWordConverter._build_document`: split the content into
lines and run the line loop.  The `metadata` argument is accepted, as in
the source, and never read. -/
def build_document (cfg : ConversionConfig) (content : String)
    (_metadata : FormatMetadata) : List Block :=
  let lines := (splitOnChar '\n' content.data).map fun u => (⟨u⟩ : String)
  build_loop cfg lines.length lines 0 false [] []

/-! ## `MarkdownToWordConverter`: front-matter and metadata envelope

The external JSON and YAML parsers are parameters of the functions that
use them, with codomains rich enough to represent every outcome the
source distinguishes, including the exceptions it does NOT catch:
`_extract_metadata` catches only `json.JSONDecodeError`, so a payload that
decodes to something other than a record of the dataclass fields makes
`FormatMetadata(**d)` raise an uncaught `TypeError`; and a truthy
non-mapping front-matter value reaches `_update_config_from_dict`, whose
`.items()` call raises an uncaught `AttributeError`.  Uncaught exceptions
are modelled as `Except.error`: they abort the conversion (the
`convert_md_to_docx` top-level handler reports them and returns failure).
-/

/-- An exception escaping the preparation pipeline. -/
inductive PyError where
  | typeError
  | attributeError
deriving DecidableEq, Repr

/-- Outcome of `json.loads` + `FormatMetadata(**d)` on a metadata payload:
a decode exception (caught by the source), a decoded value that is not a
record of the dataclass's fields (`TypeError`, uncaught), or a record. -/
inductive JsonOutcome where
  | decodeError
  | nonRecord
  | record (m : FormatMetadata)

/-- A parsed YAML front-matter mapping (configuration overrides). -/
abbrev YamlCfg : Type := List (String × String)

/-- Outcome of `yaml.safe_load` on a front-matter payload that parsed: a
mapping, a truthy non-mapping value (scalar, list, ...), or a falsy
non-mapping value.  A parse exception is the `none` of the parser
parameter, mapped to `None` by the source's bare `except`. -/
inductive YamlVal where
  | mapping (d : YamlCfg)
  | truthyOther
  | falsyOther

/-- Python truthiness of a front-matter parse result
(`if frontmatter_config:`): a mapping is truthy iff non-empty. -/
def yamlValTruthy : YamlVal → Bool
  | .mapping d => !(List.isEmpty d)
  | .truthyOther => true
  | .falsyOther => false

/-- The literal the metadata regex `<!-- WORD_CONVERSION_METADATA\n(.*?)\n-->`
opens with. -/
def metaOpen : String := "<!-- WORD_CONVERSION_METADATA\n"

/-- The literal the metadata regex closes with. -/
def metaClose : String := "\n-->"

/-- The `re.search` of `_extract_metadata`: the capture between the first
occurrence of the open literal and the first close literal after it (the
non-greedy `(.*?)` under DOTALL), if the pattern matches at all. -/
def findMetadataBlock (content : String) : Option String :=
  match splitFirst metaOpen.data content.data with
  | none => none
  | some (_, after) =>
    match splitFirst metaClose.data after with
    | none => none
    | some (cap, _) => some ⟨cap⟩

/-- `MarkdownToWordConverter._extract_metadata`: no block yields a fresh
empty record; a block is decoded with `jp` — a decode exception (the only
one the source catches) also yields a fresh empty record, while a payload
that is valid JSON but not a record raises `TypeError` out of the method. -/
def extract_metadata (jp : String → JsonOutcome) (content : String) :
    Except PyError FormatMetadata :=
  match findMetadataBlock content with
  | none => .ok {}
  | some cap =>
    match jp cap with
    | .record m => .ok m
    | .decodeError => .ok {}
    | .nonRecord => .error .typeError

/-- The open literal of the `_strip_metadata` regex
`\n\n<!-- WORD_CONVERSION_METADATA.*?-->\n?$`. -/
def stripMetaOpen : String := "\n\n<!-- WORD_CONVERSION_METADATA"

/-- `MarkdownToWordConverter._strip_metadata`: remove the end-anchored
metadata block.  In default (non-MULTILINE) mode `$` matches at the end of
the string or just before a final newline, and `\n?` is greedy, so the
regex matches when the content ends with the arrow followed by at most two
newlines — `...-->` and `...-->\n` are removed entirely from the leftmost
viable open literal on, while `...-->\n\n` keeps the final newline — and
the open literal must leave room for the closing arrow after it. -/
def strip_metadata (content : String) : String :=
  let cs := content.data
  let keep := stripMetaOpen.length + 3
  if "-->".data.isSuffixOf cs then
    match splitFirst stripMetaOpen.data cs with
    | some (pre, _) =>
      if pre.length + keep ≤ cs.length then ⟨cs.take pre.length⟩ else content
    | none => content
  else if ("-->\n").data.isSuffixOf cs then
    match splitFirst stripMetaOpen.data cs with
    | some (pre, _) =>
      if pre.length + keep + 1 ≤ cs.length then ⟨cs.take pre.length⟩ else content
    | none => content
  else if ("-->\n\n").data.isSuffixOf cs then
    match splitFirst stripMetaOpen.data cs with
    | some (pre, _) =>
      if pre.length + keep + 2 ≤ cs.length then ⟨cs.take pre.length ++ ['\n']⟩ else content
    | none => content
  else content

/-- `MarkdownToWordConverter._extract_frontmatter_config`: content must
start with `---\n` and contain `\n---\n` from index 4 on; the text between
is handed to the YAML parser `yp` (`none` = parse failure, mapped to
`None` by the source's `except`). -/
def extract_frontmatter_config (yp : String → Option YamlVal) (content : String) :
    Option YamlVal :=
  if !strStartsWith content "---\n" then none
  else
    match findFromIdx content.data 4 "\n---\n".data with
    | none => none
    | some i => yp ⟨(content.data.drop 4).take (i - 4)⟩

/-- `MarkdownToWordConverter._strip_frontmatter`: drop everything up to
and including the closing `\n---\n` when the delimiters are present, else
return the content unchanged. -/
def strip_frontmatter (content : String) : String :=
  if !strStartsWith content "---\n" then content
  else
    match findFromIdx content.data 4 "\n---\n".data with
    | none => content
    | some i => ⟨content.data.drop (i + 5)⟩

/-- The content-preparation pipeline of `convert_md_to_docx` between
reading the source file and building the document: when the front-matter
parse result is truthy, `_update_config_from_dict` runs first — on a
non-mapping it raises `AttributeError` (uncaught) — and then the
front-matter is stripped; afterwards the advisory metadata is extracted
(which can raise `TypeError`, see `extract_metadata`) and the metadata
block stripped.  On success, returns the body handed to `_build_document`
and the record.  (On a mapping, `_update_config_from_dict` itself touches
only the visual configuration, which the block model abstracts away.) -/
def preprocessContent (yp : String → Option YamlVal) (jp : String → JsonOutcome)
    (content : String) : Except PyError (String × FormatMetadata) :=
  match extract_frontmatter_config yp content with
  | some v =>
    if yamlValTruthy v then
      match v with
      | .mapping _ =>
        match extract_metadata jp (strip_frontmatter content) with
        | .ok m => .ok (strip_metadata (strip_frontmatter content), m)
        | .error e => .error e
      | _ => .error .attributeError
    else
      match extract_metadata jp content with
      | .ok m => .ok (strip_metadata content, m)
      | .error e => .error e
  | none =>
    match extract_metadata jp content with
    | .ok m => .ok (strip_metadata content, m)
    | .error e => .error e

/-! ## Helper lemmas -/

/-- Folding `update` over blocks hashes the concatenation of the blocks. -/
theorem foldl_hashlibUpdate (bs : List (List Nat)) (acc : List Nat) :
    bs.foldl hashlibUpdate acc = acc ++ bs.flatten := by
  induction bs generalizing acc with
  | nil => simp
  | cons x xs ih => simp [hashlibUpdate, ih]

/-- Chunking with sufficient fuel loses no bytes: the chunks reassemble to
the original stream. -/
theorem chunkList_flatten (size : Nat) (hsize : 1 ≤ size) :
    ∀ (fuel : Nat) (l : List Nat), l.length ≤ fuel → (chunkList fuel size l).flatten = l := by
  intro fuel
  induction fuel with
  | zero =>
    intro l hl
    have : l = [] := List.length_eq_zero.mp (Nat.le_zero.mp hl)
    simp [this, chunkList]
  | succ n ih =>
    intro l hl
    by_cases hnil : l = []
    · simp [hnil, chunkList]
    · rw [chunkList, if_neg hnil]
      have hdrop : (l.drop size).length ≤ n := by
        have h1 : 1 ≤ l.length := by
          cases l with
          | nil => exact absurd rfl hnil
          | cons c cs => simp
        simp only [List.length_drop]
        omega
      simp [ih (l.drop size) hdrop]

/-- Whatever candidate the backup-name loop returns does not exist in the
file system: the loop only stops on a free name. -/
theorem backupLoop_free (fs : FS) (cfg : SafetyConfig) (p : String) :
    ∀ (fuel k : Nat) (bp : String), backupLoop fs cfg p fuel k = some bp →
      fsExists fs bp = false := by
  intro fuel
  induction fuel with
  | zero => intro k bp h; simp [backupLoop] at h
  | succ n ih =>
    intro k bp h
    rw [backupLoop] at h
    by_cases hc : fsExists fs (backupCandidate cfg p k)
    · rw [if_pos hc] at h
      exact ih (k + 1) bp h
    · rw [if_neg hc] at h
      cases h
      simpa using hc

/-! ## Claim theorems -/

/-- Claim C1: `safe_write_check` evaluates the collision test first, and
whenever the collision predicate holds it fails immediately with the
collision reason and an untouched file system, for every policy
configuration and every prompt response; in particular no policy setting
lets the check succeed when the source and an existing target share a stem
but hash differently. -/
theorem c1_safe_write_check_collision_first (cfg : SafetyConfig) (resp : String)
    (fs : FS) (src tgt : String) :
    (detect_conversion_collision fs src tgt = true →
      safe_write_check cfg resp fs src tgt =
        (false, "Collision detected: " ++ tgt ++ " exists with different content", fs)) ∧
    (fsExists fs tgt = true → pathStem src = pathStem tgt →
      calculate_file_hash fs src ≠ calculate_file_hash fs tgt →
      (safe_write_check cfg resp fs src tgt).1 = false) := by
  have main : detect_conversion_collision fs src tgt = true →
      safe_write_check cfg resp fs src tgt =
        (false, "Collision detected: " ++ tgt ++ " exists with different content", fs) := by
    intro h
    simp [safe_write_check, h]
  refine ⟨main, fun h1 h2 h3 => ?_⟩
  rw [main (by simp [detect_conversion_collision, h1, h2, h3])]

set_option maxRecDepth 10000 in
/-- Witness for C1 at a concrete collision: `doc.md` and an existing
`doc.txt` share the stem `doc` but hold different bytes, and the check
fails with the collision reason even under the default policy. -/
theorem c1_safe_write_check_collision_first_w :
    detect_conversion_collision [("doc.md", [104, 105]), ("doc.txt", [104, 106])]
      "doc.md" "doc.txt" = true ∧
    safe_write_check {} "y" [("doc.md", [104, 105]), ("doc.txt", [104, 106])]
      "doc.md" "doc.txt" =
      (false, "Collision detected: " ++ "doc.txt" ++ " exists with different content",
       [("doc.md", [104, 105]), ("doc.txt", [104, 106])]) :=
  ⟨by decide,
   (c1_safe_write_check_collision_first {} "y"
     [("doc.md", [104, 105]), ("doc.txt", [104, 106])] "doc.md" "doc.txt").1 (by decide)⟩

/-- Claim C2: the collision predicate holds exactly when the target
exists, the two paths share a stem, and their digests differ — so it is
false whenever the target is missing, and false whenever the two files
hash identically.  (The embedded function is pure, matching the source
method, which only reads files.) -/
theorem c2_detect_conversion_collision_iff (fs : FS) (a b : String) :
    detect_conversion_collision fs a b = true ↔
      (fsExists fs b = true ∧ pathStem a = pathStem b ∧
        calculate_file_hash fs a ≠ calculate_file_hash fs b) := by
  unfold detect_conversion_collision
  by_cases hb : fsExists fs b
  · by_cases hs : pathStem a = pathStem b
    · simp [hb, hs]
    · simp [hb, hs]
  · simp [Bool.not_eq_true] at hb
    simp [hb]

/-- Claim C3: `create_backup` on a missing path returns `none` and leaves
the file system alone; any backup it does create goes to a name that did
not exist, preserving every existing file; and with the default suffix the
probe sequence on `file.ext`-shaped paths is `.backup`, `.backup.1`,
`.backup.2`, stopping at the first free name. -/
theorem c3_create_backup_spec (fs : FS) (p : String) :
    (lookupFS fs p = none → create_backup {} fs p = (none, fs)) ∧
    (∀ bp fs2, create_backup {} fs p = (some bp, fs2) →
      fsExists fs bp = false ∧ ∀ q, fsExists fs q = true → lookupFS fs2 q = lookupFS fs q) ∧
    (fsExists fs p = true →
      (fsExists fs (withSuffix p (pathSuffix p ++ ".backup")) = false →
        (create_backup {} fs p).1 = some (withSuffix p (pathSuffix p ++ ".backup"))) ∧
      (fsExists fs (withSuffix p (pathSuffix p ++ ".backup")) = true →
       fsExists fs (withSuffix p (pathSuffix p ++ ".backup.1")) = false →
        (create_backup {} fs p).1 = some (withSuffix p (pathSuffix p ++ ".backup.1"))) ∧
      (fsExists fs (withSuffix p (pathSuffix p ++ ".backup")) = true →
       fsExists fs (withSuffix p (pathSuffix p ++ ".backup.1")) = true →
       fsExists fs (withSuffix p (pathSuffix p ++ ".backup.2")) = false →
        (create_backup {} fs p).1 = some (withSuffix p (pathSuffix p ++ ".backup.2")))) := by
  have e1 : (".backup" ++ ("." ++ Nat.repr 1) : String) = ".backup.1" := rfl
  have e2 : (".backup" ++ ("." ++ Nat.repr 2) : String) = ".backup.2" := rfl
  have hc0 : backupCandidate {} p 0 = withSuffix p (pathSuffix p ++ ".backup") := by
    simp [backupCandidate]
  have hc1 : backupCandidate {} p 1 = withSuffix p (pathSuffix p ++ ".backup.1") := by
    simp only [backupCandidate, withSuffix, String.append_assoc,
      if_neg (by omega : ¬(1 : Nat) = 0)]
    rw [e1]
  have hc2 : backupCandidate {} p 2 = withSuffix p (pathSuffix p ++ ".backup.2") := by
    simp only [backupCandidate, withSuffix, String.append_assoc,
      if_neg (by omega : ¬(2 : Nat) = 0)]
    rw [e2]
  refine ⟨?_, ?_, ?_⟩
  · intro h; simp [create_backup, h]
  · intro bp fs2 h
    unfold create_backup at h
    cases hl : lookupFS fs p with
    | none => rw [hl] at h; simp at h
    | some c =>
      rw [hl] at h
      cases hb : backupLoop fs {} p (fs.length + 3) 0 with
      | none => rw [hb] at h; simp at h
      | some bp' =>
        rw [hb] at h
        simp at h
        obtain ⟨hbp, hfs2⟩ := h
        subst hbp
        have hfree : fsExists fs bp' = false := backupLoop_free fs {} p _ 0 bp' hb
        refine ⟨hfree, ?_⟩
        intro q hq
        have hne : ¬(bp' = q) := by
          intro he; rw [he] at hfree; rw [hq] at hfree; simp at hfree
        rw [← hfs2]
        simp [lookupFS, hne]
  · intro hp
    obtain ⟨c, hc⟩ := Option.isSome_iff_exists.mp hp
    refine ⟨?_, ?_, ?_⟩
    · intro h0
      simp only [create_backup, hc]
      rw [show fs.length + 3 = (fs.length + 2) + 1 by omega, backupLoop, hc0,
        if_neg (by simp [h0])]
    · intro h0 h1
      simp only [create_backup, hc]
      rw [show fs.length + 3 = (fs.length + 2) + 1 by omega, backupLoop, hc0, if_pos h0]
      rw [show fs.length + 2 = (fs.length + 1) + 1 by omega, backupLoop, hc1,
        if_neg (by simp [h1])]
    · intro h0 h1 h2
      simp only [create_backup, hc]
      rw [show fs.length + 3 = (fs.length + 2) + 1 by omega, backupLoop, hc0, if_pos h0]
      rw [show fs.length + 2 = (fs.length + 1) + 1 by omega, backupLoop, hc1, if_pos h1]
      rw [backupLoop, hc2, if_neg (by simp [h2])]

/-- Witness for C3: with `file.ext` and `file.ext.backup` both present, a
backup run chooses `file.ext.backup.1`. -/
theorem c3_create_backup_spec_w :
    (create_backup {} [("file.ext", [1]), ("file.ext.backup", [2])] "file.ext").1 =
      some "file.ext.backup.1" :=
  ((c3_create_backup_spec [("file.ext", [1]), ("file.ext.backup", [2])] "file.ext").2.2
    (by decide)).2.1 (by decide) (by decide)

/-- Claim C4 (evaluation at the failing input): the forward direction is
as claimed — the 2×2 table emits exactly the three pipe lines — but the
reverse parse does NOT reconstruct exactly one table: because the
source's `line_num += len(table_lines) - 1` reassigns the `for` loop
variable (a no-op in Python), the separator and data lines are re-scanned
and a second, spurious 1×2 table is built after the faithful 2×2 one. -/
theorem c4_table_roundtrip_eval :
    process_table [["A", "B"], ["1", "2"]] = "| A | B |\n| --- | --- |\n| 1 | 2 |" ∧
    build_document {} "| A | B |\n| --- | --- |\n| 1 | 2 |" {} =
      [Block.table [["A", "B"], ["1", "2"]], Block.table [["1", "2"]]] :=
  ⟨rfl, by decide⟩

/-- Claim C5 (evaluation at the failing input): the 25-`=` box pattern is
recognized by the (dead) `_is_header_box_divider` helper, but the builder
never reaches that branch: `_is_horizontal_rule` accepts any ≥10-character
`=` line and fires first, so the three source lines become a divider
paragraph, a plain paragraph, and another divider — not one bordered
heading. -/
theorem c5_header_box_eval :
    is_header_box_divider "========================="
      ["=========================", "Section Title", "========================="] 0 = true ∧
    build_document {} "=========================\nSection Title\n=========================" {} =
      [Block.hrule, Block.para [{ text := "Section Title" }], Block.hrule] :=
  ⟨by decide, by decide⟩

/-- Counterexample to claim C6: a run that is bold and underlined is NOT
emitted as `<u>**x**</u>` (underline outside bold), because the underline
wrapper is applied before (inside) the bold wrapper. -/
theorem c6_nesting_counterexample :
    runMarkup { text := "x", bold := true, underline := true } ≠ "<u>**x**</u>" := by
  decide

/-- Spec-side wrapper: superscript/subscript tags (innermost in the
amended nesting order). -/
def supSubWrap (sup sub : Bool) (t : String) : String :=
  if sup then "<sup>" ++ t ++ "</sup>"
  else if sub then "<sub>" ++ t ++ "</sub>"
  else t

/-- Spec-side wrapper: strikethrough. -/
def strikeWrap (st : Bool) (t : String) : String :=
  if st then "~~" ++ t ++ "~~" else t

/-- Spec-side wrapper: underline tags. -/
def underlineWrap (u : Bool) (t : String) : String :=
  if u then "<u>" ++ t ++ "</u>" else t

/-- Spec-side wrapper: combined bold+italic, else bold, else italic
(outermost in the amended nesting order). -/
def boldItalicWrap (b i : Bool) (t : String) : String :=
  if b && i then "***" ++ t ++ "***"
  else if b then "**" ++ t ++ "**"
  else if i then "*" ++ t ++ "*"
  else t

/-- Claim C6 as amended: for every non-hyperlink run the emitted text is
the fixed nested composition with bold/italic OUTERMOST, then underline,
then strikethrough, then superscript/subscript innermost (the claim's
outer-to-inner order is inverted); a bold and underlined run therefore
emits `**<u>text</u>**`. -/
theorem c6_nesting_order_amended (r : DocxRun) (h : r.hyperlink = false) :
    runMarkup r =
      boldItalicWrap r.bold r.italic
        (underlineWrap r.underline
          (strikeWrap r.strike
            (supSubWrap r.superscript r.subscript r.text))) := by
  simp [runMarkup, boldItalicWrap, underlineWrap, strikeWrap, supSubWrap, h]

/-- Witness for the amended C6 at a bold and underlined run. -/
theorem c6_nesting_order_amended_w :
    runMarkup { text := "x", bold := true, underline := true } =
      boldItalicWrap true false (underlineWrap true (strikeWrap false (supSubWrap false false "x"))) :=
  c6_nesting_order_amended { text := "x", bold := true, underline := true } rfl

/-- Claim C7: a run with both bold and italic set is emitted wrapped in
triple asterisks, a bold-only run in double asterisks, an italic-only run
in single asterisks. -/
theorem c7_bold_italic_triple_asterisk (t : String) :
    runMarkup { text := t, bold := true, italic := true } = "***" ++ t ++ "***" ∧
    runMarkup { text := t, bold := true } = "**" ++ t ++ "**" ∧
    runMarkup { text := t, italic := true } = "*" ++ t ++ "*" := by
  refine ⟨?_, ?_, ?_⟩ <;> simp [runMarkup]

/-- Claim C8: the fingerprint of a missing file is the empty-string
sentinel, not an error; the fingerprint of an existing file is the SHA-256
hex digest of its full byte stream (the 4096-byte chunking loses nothing);
and the digest depends only on the stored bytes, so hashing the same bytes
twice yields equal digests. -/
theorem c8_calculate_file_hash_spec (fs : FS) (p : String) :
    (lookupFS fs p = none → calculate_file_hash fs p = "") ∧
    (∀ c, lookupFS fs p = some c → calculate_file_hash fs p = sha256hex c) ∧
    (∀ fs2 p2, lookupFS fs2 p2 = lookupFS fs p →
      calculate_file_hash fs2 p2 = calculate_file_hash fs p) := by
  refine ⟨?_, ?_, ?_⟩
  · intro h; simp [calculate_file_hash, h]
  · intro c h
    simp only [calculate_file_hash, h]
    rw [foldl_hashlibUpdate]
    rw [chunkList_flatten 4096 (by omega) c.length c (le_refl _)]
    rfl
  · intro fs2 p2 h
    simp only [calculate_file_hash, h]

/-- Witness for C8: a missing path yields the sentinel, an existing
two-byte file yields the digest of exactly those bytes. -/
theorem c8_calculate_file_hash_spec_w :
    calculate_file_hash [("a.md", [97, 98])] "missing.md" = "" ∧
    calculate_file_hash [("a.md", [97, 98])] "a.md" = sha256hex [97, 98] :=
  ⟨(c8_calculate_file_hash_spec [("a.md", [97, 98])] "missing.md").1 (by decide),
   (c8_calculate_file_hash_spec [("a.md", [97, 98])] "a.md").2.1 [97, 98] (by decide)⟩

/-- Claim C9 (evaluation at the failing inputs): malformed blocks CAN be
fatal.  A trailing metadata block whose payload is valid JSON but not a
record of the dataclass fields (e.g. `[1, 2]`) makes `FormatMetadata(**d)`
raise an uncaught `TypeError`, aborting the conversion; a truthy
non-mapping front-matter value (e.g. the scalar `hello`) reaches
`_update_config_from_dict` and raises an uncaught `AttributeError`.  Only
the paths the source actually guards are non-fatal as the claim says: an
absent block, a JSON decode failure, a front-matter block the YAML parser
rejects, and a genuine mapping front-matter, the last two leaving or
stripping the body as intended. -/
theorem c9_malformed_blocks_fatal_eval :
    extract_metadata (fun _ => .nonRecord)
      "body\n\n<!-- WORD_CONVERSION_METADATA\n[1, 2]\n-->\n" = .error .typeError ∧
    preprocessContent (fun _ => none) (fun _ => .nonRecord)
      "body\n\n<!-- WORD_CONVERSION_METADATA\n[1, 2]\n-->\n" = .error .typeError ∧
    preprocessContent (fun _ => some .truthyOther) (fun _ => .decodeError)
      "---\nhello\n---\nbody" = .error .attributeError ∧
    extract_metadata (fun _ => .decodeError)
      "body\n\n<!-- WORD_CONVERSION_METADATA\nnot json\n-->\n" = .ok {} ∧
    extract_metadata (fun _ => .decodeError) "plain body" = .ok {} ∧
    preprocessContent (fun _ => none) (fun _ => .decodeError) "---\nbroken\nbody" =
      .ok ("---\nbroken\nbody", {}) ∧
    preprocessContent (fun _ => some (.mapping [("font_name", "Arial")]))
      (fun _ => .decodeError) "---\nfont_name: Arial\n---\nbody" = .ok ("body", {}) := by
  refine ⟨rfl, rfl, rfl, rfl, rfl, rfl, rfl⟩

/-- Claim C10: the parsed metadata record has no influence on the built
document — `_build_document` accepts the record and never reads it, so
for any two records (the empty one included) the built block sequence is
identical; the markup text alone determines the output. -/
theorem c10_metadata_noninterference (cfg : ConversionConfig) (content : String)
    (m1 m2 : FormatMetadata) :
    build_document cfg content m1 = build_document cfg content m2 := rfl
